import Mathlib

/-!
Shallow embedding of the vCard generation library (vcard.go, fields.go).

The library renders a structured contact card into the textual vCard
format for versions 2.1, 3.0 and 4.0.  Fields are polymorphic values
implementing `Format(version) (string, error)`; a card is a version tag
plus an ordered field list; `Validate` checks version support of every
field and the per-version required kinds; `Generate` concatenates the
rendered lines into the framed document; `New` rejects unknown versions
and validates eagerly.

Modelling conventions:
* Go `(string, error)` results of `Format` become `Except VErr String`;
  the pair returned by `Generate` is kept as `String × Option VErr`
  because the claims speak about the string component in the error case.
* Go errors are modelled structurally: the sentinel `ErrVersion` is
  `VErr.errVersion`; the two `fmt.Errorf` results of `Validate` carry the
  offending kind and version; `VersionError` is `VErr.unknownVersion`.
* A Go `*url.URL` is modelled by its rendered text (`Option String`,
  `none` being the nil pointer, which `fmt` prints as `<nil>`).
* `time.Time` and its layout strings are outside the embedding: `Rev`,
  `Anniversary` and `Bday` carry the already rendered timestamp text
  (no claim depends on time formatting).
* Go `float64` latitude/longitude are modelled as `ℚ`; `%f` (six fixed
  decimals, rounding to nearest) is `fmt6` below.  The concrete inputs
  used by the claims are exact at four decimals, so no rounding occurs
  and the binary-float/rational difference is invisible at six decimals.
-/

namespace Vcard

/-- The kinds of fields (the Go `reflect.Type` identities used by the
required-field registry and the `%T` verb of the validation errors). -/
inductive FieldKind where
  | N | FN | Org | Title | Role | Photo | Tel | Adr | Email | Rev
  | Agent | Anniversary | Bday | FbURL | Gender | Geo | IMPP | Key
deriving DecidableEq, Repr

/-- Errors of the library: the `ErrVersion` sentinel used by field
formatters, the two `fmt.Errorf` validation errors (carrying the field
kind and the version), and `VersionError` returned by `New`. -/
inductive VErr where
  | errVersion
  | unsupportedField (kind : FieldKind) (version : String)
  | missingRequiredField (kind : FieldKind) (version : String)
  | unknownVersion
deriving DecidableEq, Repr

instance exceptDecEq {ε α : Type} [DecidableEq ε] [DecidableEq α] :
    DecidableEq (Except ε α) := fun a b =>
  match a, b with
  | .ok x, .ok y => decidable_of_iff (x = y) (by simp)
  | .error x, .error y => decidable_of_iff (x = y) (by simp)
  | .ok _, .error _ => .isFalse (by simp)
  | .error _, .ok _ => .isFalse (by simp)

/-- Rendering of a Go `*url.URL` through the `%s` verb: a nil pointer
prints `<nil>`, otherwise the URL text. -/
def uriRender : Option String → String
  | none => "<nil>"
  | some u => u

/-- Left-pad a natural number to six digits (the fractional part of the
Go `%f` verb). -/
def pad6 (n : ℕ) : String :=
  let s := toString n
  String.mk (List.replicate (6 - s.length) '0') ++ s

/-- The Go `%f` verb on a rational: sign, integer part, and six fixed
decimals of the magnitude rounded to nearest
(`(2·10⁶·|num| + den) / (2·den)` is `⌊|q|·10⁶ + 1/2⌋` in ℕ). -/
def fmt6 (q : ℚ) : String :=
  let sign := if q.num < 0 then "-" else ""
  let n : ℕ := (2 * 1000000 * q.num.natAbs + q.den) / (2 * q.den)
  sign ++ toString (n / 1000000) ++ "." ++ pad6 (n % 1000000)

/-- fields.go `mediaString`: the shared renderer of the media fields
(`Photo`), parameterized by property name, media type, inline base64
data and URI. -/
def mediaString (v field tp b64 : String) (uri : Option String) : Except VErr String :=
  if v = "2.1" then
    let b := field ++ (if tp ≠ "" then ";" ++ tp else "")
    if b64.length ≠ 0 then .ok (b ++ ";ENCODING=BASE64:" ++ b64)
    else .ok (b ++ ":" ++ uriRender uri)
  else if v = "3.0" then
    let b := field ++ (if tp ≠ "" then ";TYPE=" ++ tp else "")
    if b64.length > 0 then .ok (b ++ ";ENCODING=b:" ++ b64)
    else .ok (b ++ ";VALUE=uri:" ++ uriRender uri)
  else if v = "4.0" then
    if b64.length ≠ 0 then .ok (field ++ ":data:" ++ tp ++ ";base64," ++ b64)
    else .ok (field ++ (if tp ≠ "" then ";MEDIATYPE=" ++ tp else "") ++ ":" ++ uriRender uri)
  else .error .errVersion

mutual
/-- The field value types of fields.go (the `FieldFormatter`
implementations).  Argument names follow the Go struct fields (`Tp`
stands for the Go field `Type`, a keyword in Lean). -/
inductive Field where
  | N (FamilyName GivenName AdditionalNames HonorificPrefixes HonorificSuffixes : String)
  | FN (FormattedName : String)
  | Org (Name : String) (Units : List String)
  | Title (TitleText : String)
  | Role (RoleText : String)
  | Photo (Tp : String) (URI : Option String) (Base64Data : String)
  | Tel (Types : List String) (Number : String)
  | Adr (Types : List String)
      (PostOfficeBox ExtendedAddress StreetAddress Locality Region PostalCode CountryName : String)
  | Email (Types : List String) (EmailAddr : String)
  | Rev (TimestampText : String)
  | Agent (Card : Option VCard) (Text : String)
  | Anniversary (DateText : String)
  | Bday (TimestampText : String)
  | FbURL (URL : Option String)
  | Gender (Val : String)
  | Geo (Lat Long : ℚ)
  | IMPP (Platform Handle : String)
  | Key (Tp : String) (URI : Option String) (Data : String) (Binary : Bool)

/-- vcard.go `VCard`: a version tag plus the ordered field list. -/
inductive VCard where
  | mk (Version : String) (Fields : List Field)
end

/-- The version tag of a card. -/
def VCard.Version : VCard → String
  | .mk v _ => v

/-- The ordered field list of a card. -/
def VCard.Fields : VCard → List Field
  | .mk _ fs => fs

/-- The kind (Go dynamic type) of a field value. -/
def fieldKind : Field → FieldKind
  | .N .. => .N
  | .FN .. => .FN
  | .Org .. => .Org
  | .Title .. => .Title
  | .Role .. => .Role
  | .Photo .. => .Photo
  | .Tel .. => .Tel
  | .Adr .. => .Adr
  | .Email .. => .Email
  | .Rev .. => .Rev
  | .Agent .. => .Agent
  | .Anniversary .. => .Anniversary
  | .Bday .. => .Bday
  | .FbURL .. => .FbURL
  | .Gender .. => .Gender
  | .Geo .. => .Geo
  | .IMPP .. => .IMPP
  | .Key .. => .Key

/-- The versions each field kind renders for: the `case` arms of the
`Format` methods in fields.go. -/
def kindVersions : FieldKind → List String
  | .Agent => ["2.1", "3.0"]
  | .Anniversary | .FbURL | .Gender => ["4.0"]
  | .IMPP => ["3.0", "4.0"]
  | _ => ["2.1", "3.0", "4.0"]

/-- The body of the `Agent` formatter applied to the result pair of the
nested card's `Generate`: an error is propagated unchanged, a document
is wrapped as `AGENT:<document>`. -/
def agentDoc : String × Option VErr → Except VErr String
  | (_, some e) => .error e
  | (s, none) => .ok ("AGENT:" ++ s)

mutual
/-- The `Format(version)` methods of fields.go, one match arm per field
type, translated clause by clause from the source. -/
def Field.Format : Field → String → Except VErr String
  | .N fam giv add pre suf, v =>
    if v = "2.1" ∨ v = "3.0" ∨ v = "4.0" then
      .ok ("N:" ++ fam ++ ";" ++ giv ++ ";" ++ add ++ ";" ++ pre ++ ";" ++ suf)
    else .error .errVersion
  | .FN formatted, v =>
    if v = "2.1" ∨ v = "3.0" ∨ v = "4.0" then .ok ("FN:" ++ formatted)
    else .error .errVersion
  | .Org name units, v =>
    if v = "2.1" ∨ v = "3.0" ∨ v = "4.0" then
      let l := "ORG:" ++ name
      if units.length > 0 then .ok (l ++ ";" ++ String.intercalate ";" units)
      else .ok l
    else .error .errVersion
  | .Title t, v =>
    if v = "2.1" ∨ v = "3.0" ∨ v = "4.0" then .ok ("TITLE:" ++ t)
    else .error .errVersion
  | .Role r, v =>
    if v = "2.1" ∨ v = "3.0" ∨ v = "4.0" then .ok ("ROLE:" ++ r)
    else .error .errVersion
  | .Photo tp uri b64, v => mediaString v "PHOTO" tp b64 uri
  | .Tel types number, v =>
    if v = "2.1" ∨ v = "3.0" ∨ v = "4.0" then
      let t := String.intercalate "," types
      let t := if t = "" then "voice" else t
      .ok ("TEL;TYPE=" ++ t ++ ":" ++ number)
    else .error .errVersion
  | .Adr types pobox ext street loc reg postal country, v =>
    if v = "2.1" ∨ v = "3.0" ∨ v = "4.0" then
      let t := String.intercalate "," types
      let t := if t = "" then "intl,postal,parcel,work" else t
      .ok ("ADR;TYPE=" ++ t ++ ":" ++ pobox ++ ";" ++ ext ++ ";" ++ street ++ ";" ++
        loc ++ ";" ++ reg ++ ";" ++ postal ++ ";" ++ country)
    else .error .errVersion
  | .Email types addr, v =>
    if v = "2.1" ∨ v = "3.0" ∨ v = "4.0" then
      let b := "EMAIL" ++ (if types.length > 0 then ";TYPE=" ++ String.intercalate "," types else "")
      .ok (b ++ ":" ++ addr)
    else .error .errVersion
  | .Rev ts, v =>
    if v = "2.1" ∨ v = "3.0" ∨ v = "4.0" then .ok ("REV:" ++ ts)
    else .error .errVersion
  | .Agent card txt, v =>
    if v = "2.1" ∨ v = "3.0" then agentString card txt
    else .error .errVersion
  | .Anniversary d, v =>
    if v = "4.0" then .ok ("ANNIVERSARY:" ++ d)
    else .error .errVersion
  | .Bday ts, v =>
    if v = "2.1" ∨ v = "3.0" ∨ v = "4.0" then .ok ("BDAY:" ++ ts)
    else .error .errVersion
  | .FbURL u, v =>
    if v = "4.0" then .ok ("FBURL:" ++ uriRender u)
    else .error .errVersion
  | .Gender g, v =>
    if v = "4.0" then .ok ("GENDER:" ++ g)
    else .error .errVersion
  | .Geo lat long, v =>
    if v = "2.1" ∨ v = "3.0" then .ok ("GEO:" ++ fmt6 lat ++ "," ++ fmt6 long)
    else if v = "4.0" then .ok ("GEO:geo:" ++ fmt6 lat ++ "," ++ fmt6 long)
    else .error .errVersion
  | .IMPP platform handle, v =>
    if v = "3.0" ∨ v = "4.0" then .ok ("IMPP:" ++ platform.toLower ++ ":" ++ handle)
    else .error .errVersion
  | .Key tp uri data bin, v =>
    if v = "2.1" then
      if data.length > 0 then
        .ok ("KEY" ++ ";" ++ tp ++ (if bin then ";ENCODING=BASE64" else "") ++ ":" ++ data)
      else .ok ("KEY" ++ ";" ++ tp ++ ":" ++ uriRender uri)
    else if v = "3.0" then
      if data.length > 0 then
        .ok ("KEY" ++ ";TYPE=" ++ tp ++ (if bin then ";ENCODING=b" else "") ++ ":" ++ data)
      else .ok ("KEY" ++ ";TYPE=" ++ tp ++ ":" ++ uriRender uri)
    else if v = "4.0" then
      if data.length > 0 then
        .ok ("KEY" ++ ":data:" ++ tp ++ ";" ++ (if bin then "base64," else "") ++ data)
      else .ok ("KEY" ++ ";MEDIATYPE=" ++ tp ++ ":" ++ uriRender uri)
    else .error .errVersion

/-- The `AGENT` rendering of fields.go: a non-nil nested card is
serialized (propagating its error), otherwise the literal text is
used. -/
def agentString : Option VCard → String → Except VErr String
  | some c, _ => agentDoc c.Generate
  | none, txt => .ok ("AGENT:" ++ txt)

/-- The field loop of vcard.go `Generate`: renders each field in order,
aborting with `("", err)` on the first formatting error, and closes the
document with `END:VCARD`. -/
def genFields : String → List Field → String → String × Option VErr
  | _, [], acc => (acc ++ "\nEND:VCARD", none)
  | v, f :: fs, acc =>
    match f.Format v with
    | .error e => ("", some e)
    | .ok s => genFields v fs (acc ++ "\n" ++ s)

/-- vcard.go `Generate`: `BEGIN:VCARD`, `VERSION:<v>`, one rendered line
per field, `END:VCARD`, all separated by `\n`. -/
def VCard.Generate : VCard → String × Option VErr
  | .mk v fields => genFields v fields ("BEGIN:VCARD\nVERSION:" ++ v)
end

/-- The Go comparison `err == ErrVersion` applied to a `Format` result. -/
def isErrVersion : Except VErr String → Bool
  | .error .errVersion => true
  | _ => false

/-- The `versions` registry of vcard.go: the required field kinds per
supported version (an unknown key yields the zero value, an empty
list). -/
def versionsRequired (v : String) : List FieldKind :=
  if v = "2.1" then [.N]
  else if v = "3.0" then [.N, .FN]
  else if v = "4.0" then [.FN]
  else []

/-- vcard.go `Validate`: the field-support pass (first field whose
`Format` returns the `ErrVersion` sentinel) followed by the
required-kind pass (first kind of the registry list with no instance
among the fields; `fieldMap` presence is kind membership). -/
def VCard.Validate (c : VCard) : Option VErr :=
  match c.Fields.find? (fun f => isErrVersion (f.Format c.Version)) with
  | some f => some (.unsupportedField (fieldKind f) c.Version)
  | none =>
    match (versionsRequired c.Version).find?
        (fun req => !(decide (req ∈ c.Fields.map fieldKind))) with
    | some req => some (.missingRequiredField req c.Version)
    | none => none

/-- The key set of the `versions` registry. -/
def supportedVersions : List String := ["2.1", "3.0", "4.0"]

/-- The message of `VersionError.Error`.  Go iterates the `versions` map
in unspecified order; the model fixes the ascending order, and only the
set of versions enumerated is meaningful. -/
def versionErrorMessage : String :=
  "invalid version, supported versions: " ++ String.intercalate ", " supportedVersions

/-- vcard.go `New`: rejects a version outside the registry with
`VersionError`, otherwise builds the card and validates it eagerly,
propagating the validation error. -/
def New (v : String) (fields : List Field) : Except VErr VCard :=
  if v ∈ supportedVersions then
    let card := VCard.mk v fields
    match card.Validate with
    | some e => .error e
    | none => .ok card
  else .error .unknownVersion

/-- Prefix test on character lists (helper for the substring test). -/
def listPre : List Char → List Char → Bool
  | [], _ => true
  | _ :: _, [] => false
  | a :: as, b :: bs => a == b && listPre as bs

/-- Substring occurrence test on character lists. -/
def listSub (pat : List Char) : List Char → Bool
  | [] => listPre pat []
  | b :: bs => listPre pat (b :: bs) || listSub pat bs

/-- Whether `pat` occurs as a contiguous substring of `s`. -/
def containsStr (pat s : String) : Bool := listSub pat.data s.data

/-- The separator-prefixed concatenation of lines: what `Generate`
appends after the `BEGIN`/`VERSION` header. -/
def joinPre : List String → String
  | [] => ""
  | l :: ls => "\n" ++ l ++ joinPre ls

theorem intercalate_go_eq (ls : List String) (acc : String) :
    String.intercalate.go acc "\n" ls = acc ++ joinPre ls := by
  induction ls generalizing acc with
  | nil => simp [String.intercalate.go, joinPre]
  | cons b bs ih => simp [String.intercalate.go, joinPre, ih, String.append_assoc]

theorem intercalate_eq_joinPre (a : String) (ls : List String) :
    String.intercalate "\n" (a :: ls) = a ++ joinPre ls := by
  simp [String.intercalate, intercalate_go_eq]

theorem joinPre_append (xs ys : List String) :
    joinPre (xs ++ ys) = joinPre xs ++ joinPre ys := by
  induction xs with
  | nil => simp [joinPre]
  | cons a as ih => simp [joinPre, ih, String.append_assoc]

theorem isErrVersion_iff (r : Except VErr String) :
    isErrVersion r = true ↔ r = .error .errVersion := by
  cases r with
  | ok s => simp [isErrVersion]
  | error e => cases e <;> simp [isErrVersion]

/-- A field whose kind does not list the requested version among its
supported versions formats to the `ErrVersion` sentinel. -/
theorem format_of_unsupported (f : Field) (v : String)
    (h : v ∉ kindVersions (fieldKind f)) : f.Format v = .error .errVersion := by
  cases f
  case Agent card txt =>
    simp only [fieldKind, kindVersions, List.mem_cons, List.not_mem_nil,
      or_false, not_or] at h
    simp only [Field.Format]
    rw [if_neg (by simp_all)]
  all_goals
    simp only [fieldKind, kindVersions, List.mem_cons, List.not_mem_nil,
      or_false, not_or] at h
  all_goals
    simp only [Field.Format, mediaString]
  all_goals split_ifs <;> simp_all

mutual
/-- Every error a field formatter can return is the `ErrVersion`
sentinel (the `Agent` formatter only propagates errors of the nested
card's `Generate`, which in turn come from field formatters). -/
theorem Format_error_eq (f : Field) (v : String) (e : VErr)
    (h : f.Format v = .error e) : e = .errVersion := by
  cases f with
  | N a b c d e2 => simp only [Field.Format] at h; split_ifs at h <;> simp_all
  | FN a => simp only [Field.Format] at h; split_ifs at h <;> simp_all
  | Org a b => simp only [Field.Format] at h; split_ifs at h <;> simp_all
  | Title a => simp only [Field.Format] at h; split_ifs at h <;> simp_all
  | Role a => simp only [Field.Format] at h; split_ifs at h <;> simp_all
  | Photo tp uri b64 =>
    simp only [Field.Format, mediaString] at h; split_ifs at h <;> simp_all
  | Tel a b => simp only [Field.Format] at h; split_ifs at h <;> simp_all
  | Adr a b c d e2 f2 g2 h2 => simp only [Field.Format] at h; split_ifs at h <;> simp_all
  | Email a b => simp only [Field.Format] at h; split_ifs at h <;> simp_all
  | Rev a => simp only [Field.Format] at h; split_ifs at h <;> simp_all
  | Agent card txt =>
    simp only [Field.Format] at h
    by_cases hv : v = "2.1" ∨ v = "3.0"
    · rw [if_pos hv] at h
      cases card with
      | none => simp [agentString] at h
      | some c =>
        simp only [agentString] at h
        rcases hgen : c.Generate with ⟨s1, oe⟩
        rw [hgen] at h
        cases oe with
        | none => simp [agentDoc] at h
        | some e1 =>
          simp only [agentDoc, Except.error.injEq] at h
          rw [← h]
          exact Generate_error_eq c s1 e1 hgen
    · rw [if_neg hv] at h; simp_all
  | Anniversary a => simp only [Field.Format] at h; split_ifs at h <;> simp_all
  | Bday a => simp only [Field.Format] at h; split_ifs at h <;> simp_all
  | FbURL a => simp only [Field.Format] at h; split_ifs at h <;> simp_all
  | Gender a => simp only [Field.Format] at h; split_ifs at h <;> simp_all
  | Geo a b => simp only [Field.Format] at h; split_ifs at h <;> simp_all
  | IMPP a b => simp only [Field.Format] at h; split_ifs at h <;> simp_all
  | Key tp uri data bin => simp only [Field.Format] at h; split_ifs at h <;> simp_all
termination_by sizeOf f

/-- Every error of the `Generate` field loop is the sentinel. -/
theorem genFields_error_eq (v : String) (fs : List Field) (acc s : String) (e : VErr)
    (h : genFields v fs acc = (s, some e)) : e = .errVersion := by
  cases fs with
  | nil => simp [genFields] at h
  | cons f rest =>
    simp only [genFields] at h
    rcases hfmt : f.Format v with e1 | s1
    · rw [hfmt] at h
      simp only [Prod.mk.injEq, Option.some.injEq] at h
      rw [← h.2]
      exact Format_error_eq f v e1 hfmt
    · rw [hfmt] at h
      exact genFields_error_eq v rest _ s e h
termination_by sizeOf fs

/-- Every error `Generate` can return is the sentinel. -/
theorem Generate_error_eq (c : VCard) (s : String) (e : VErr)
    (h : c.Generate = (s, some e)) : e = .errVersion := by
  cases c with
  | mk v fields =>
    exact genFields_error_eq v fields _ s e (by simpa [VCard.Generate] using h)
termination_by sizeOf c
end

/-- A formatter result that is not the sentinel is a success. -/
theorem Format_ok_of_not_errVersion (f : Field) (v : String)
    (h : isErrVersion (f.Format v) = false) : ∃ s, f.Format v = .ok s := by
  cases hf : f.Format v with
  | ok s => exact ⟨s, rfl⟩
  | error e =>
    cases Format_error_eq f v e hf
    rw [hf] at h
    simp [isErrVersion] at h

/-- A successful run of the field loop yields one rendered line per
field, in order, appended to the accumulator with one separator each,
then the closing line. -/
theorem genFields_ok_shape (v : String) (fs : List Field) :
    ∀ (acc s : String), genFields v fs acc = (s, none) →
    ∃ lines : List String,
      List.Forall₂ (fun f l => f.Format v = Except.ok l) fs lines ∧
      s = acc ++ joinPre lines ++ "\nEND:VCARD" := by
  induction fs with
  | nil =>
    intro acc s h
    refine ⟨[], .nil, ?_⟩
    simp only [genFields, Prod.mk.injEq] at h
    simp [joinPre, ← h.1]
  | cons f rest ih =>
    intro acc s h
    simp only [genFields] at h
    rcases hfmt : f.Format v with e1 | line
    · rw [hfmt] at h; simp at h
    · rw [hfmt] at h
      obtain ⟨lines, hall, hs⟩ := ih _ s h
      refine ⟨line :: lines, .cons hfmt hall, ?_⟩
      rw [hs]
      simp [joinPre, String.append_assoc]

/-- If every field renders, the field loop succeeds. -/
theorem genFields_none_of_all_ok (v : String) (fs : List Field)
    (hok : ∀ f ∈ fs, ∃ s, f.Format v = Except.ok s) :
    ∀ acc, ∃ out, genFields v fs acc = (out, none) := by
  induction fs with
  | nil => exact fun acc => ⟨acc ++ "\nEND:VCARD", rfl⟩
  | cons f rest ih =>
    intro acc
    obtain ⟨s, hs⟩ := hok f (by simp)
    obtain ⟨out, hout⟩ :=
      ih (fun g hg => hok g (List.mem_cons_of_mem f hg)) (acc ++ "\n" ++ s)
    refine ⟨out, ?_⟩
    simp only [genFields, hs]
    exact hout

/-- If some field fails to render, the field loop returns the empty
string and the sentinel. -/
theorem genFields_err_of_mem (v : String) (fs : List Field)
    (f : Field) (hmem : f ∈ fs) (herr : f.Format v = .error .errVersion) :
    ∀ acc, genFields v fs acc = ("", some VErr.errVersion) := by
  induction fs with
  | nil => cases hmem
  | cons g rest ih =>
    intro acc
    rcases hfmt : g.Format v with e1 | s1
    · have he : e1 = .errVersion := Format_error_eq g v e1 hfmt
      simp only [genFields, hfmt, he]
    · rcases List.mem_cons.mp hmem with h1 | h1
      · rw [← h1] at hfmt
        rw [herr] at hfmt
        cases hfmt
      · simp only [genFields, hfmt]
        exact ih h1 _

/-- The field loop either fails with the empty string or succeeds. -/
theorem genFields_atomic (v : String) (fs : List Field) :
    ∀ acc, (∃ e, genFields v fs acc = ("", some e)) ∨
      (∃ s, genFields v fs acc = (s, none)) := by
  induction fs with
  | nil => exact fun acc => .inr ⟨acc ++ "\nEND:VCARD", rfl⟩
  | cons f rest ih =>
    intro acc
    rcases hfmt : f.Format v with e1 | s1
    · exact .inl ⟨e1, by simp [genFields, hfmt]⟩
    · rcases ih (acc ++ "\n" ++ s1) with ⟨e, he⟩ | ⟨s, hs⟩
      · refine .inl ⟨e, ?_⟩
        simp only [genFields, hfmt]
        exact he
      · refine .inr ⟨s, ?_⟩
        simp only [genFields, hfmt]
        exact hs

/-- A card passing `Validate` has no field the support pass rejects. -/
theorem validate_none_support (c : VCard) (h : c.Validate = none) :
    ∀ f ∈ c.Fields, isErrVersion (f.Format c.Version) = false := by
  intro f hf
  rcases hfind : c.Fields.find? (fun g => isErrVersion (g.Format c.Version)) with _ | g
  · have := List.find?_eq_none.mp hfind f hf
    simpa using this
  · exfalso
    simp [VCard.Validate, hfind] at h

/-- A field the support pass rejects forces `Validate` to fail with an
`unsupportedField` error naming the first rejected field's kind. -/
theorem validate_unsupported_of_mem (c : VCard) (f : Field) (hf : f ∈ c.Fields)
    (herr : isErrVersion (f.Format c.Version) = true) :
    ∃ g ∈ c.Fields, isErrVersion (g.Format c.Version) = true ∧
      c.Validate = some (.unsupportedField (fieldKind g) c.Version) := by
  rcases hfind : c.Fields.find? (fun g => isErrVersion (g.Format c.Version)) with _ | g
  · exfalso
    have := List.find?_eq_none.mp hfind f hf
    simp [herr] at this
  · have hp : isErrVersion (g.Format c.Version) = true :=
      @List.find?_some Field (fun g => isErrVersion (g.Format c.Version)) g c.Fields hfind
    refine ⟨g, List.mem_of_find?_eq_some hfind, hp, ?_⟩
    simp [VCard.Validate, hfind]

/-- With every field supported, a required kind absent from the field
list forces `Validate` to fail with a `missingRequiredField` error
naming the first absent kind of the registry list. -/
theorem validate_missing (ver : String) (fs : List Field)
    (hsupp : ∀ f ∈ fs, isErrVersion (f.Format ver) = false)
    (req : FieldKind) (hreq : req ∈ versionsRequired ver)
    (habs : req ∉ fs.map fieldKind) :
    ∃ k, k ∈ versionsRequired ver ∧ k ∉ fs.map fieldKind ∧
      (VCard.mk ver fs).Validate = some (.missingRequiredField k ver) := by
  have hfind1 : fs.find? (fun f => isErrVersion (f.Format ver)) = none :=
    List.find?_eq_none.mpr (fun f hf => by simp [hsupp f hf])
  rcases hfind2 : (versionsRequired ver).find?
      (fun r => !(decide (r ∈ fs.map fieldKind))) with _ | k
  · exfalso
    have := List.find?_eq_none.mp hfind2 req hreq
    simp [habs] at this
  · have hk2 : (!(decide (k ∈ fs.map fieldKind))) = true :=
      @List.find?_some FieldKind (fun r => !(decide (r ∈ fs.map fieldKind)))
        k (versionsRequired ver) hfind2
    refine ⟨k, List.mem_of_find?_eq_some hfind2, by simpa using hk2, ?_⟩
    simp only [VCard.Validate, VCard.Fields, VCard.Version, hfind1, hfind2]

/-- With every field supported and every required kind present,
`Validate` succeeds. -/
theorem validate_none_of (ver : String) (fs : List Field)
    (hsupp : ∀ f ∈ fs, isErrVersion (f.Format ver) = false)
    (hreq : ∀ r ∈ versionsRequired ver, r ∈ fs.map fieldKind) :
    (VCard.mk ver fs).Validate = none := by
  have hfind1 : fs.find? (fun f => isErrVersion (f.Format ver)) = none :=
    List.find?_eq_none.mpr (fun f hf => by simp [hsupp f hf])
  have hfind2 : (versionsRequired ver).find?
      (fun r => !(decide (r ∈ fs.map fieldKind))) = none :=
    List.find?_eq_none.mpr (fun r hr => by simp [hreq r hr])
  simp only [VCard.Validate, VCard.Fields, VCard.Version, hfind1, hfind2]

/-- A version with a nonempty required list is one of the three
supported versions. -/
theorem required_version_cases (ver : String) (req : FieldKind)
    (hreq : req ∈ versionsRequired ver) :
    ver = "2.1" ∨ ver = "3.0" ∨ ver = "4.0" := by
  unfold versionsRequired at hreq
  split_ifs at hreq <;> simp_all

/-- Every required kind is `N` or `FN`. -/
theorem required_kind_cases (ver : String) (req : FieldKind)
    (hreq : req ∈ versionsRequired ver) : req = .N ∨ req = .FN := by
  unfold versionsRequired at hreq
  split_ifs at hreq <;> simp_all

/-- Any field of a kind the version requires is supported by that
version (`N` and `FN` render for all three supported versions). -/
theorem required_kind_supported (ver : String) (req : FieldKind)
    (hreq : req ∈ versionsRequired ver)
    (g : Field) (hg : fieldKind g = req) :
    isErrVersion (g.Format ver) = false := by
  rcases required_version_cases ver req hreq with rfl | rfl | rfl <;>
    rcases required_kind_cases _ req hreq with rfl | rfl <;>
    cases g <;>
    simp_all [fieldKind, Field.Format, isErrVersion]

/-- Claim C6: `Generate` is atomic in its output: for every card it
either returns the complete document with no error, or the empty string
together with an error; it never returns a non-empty partial document
alongside an error. -/
theorem C6_generate_atomic (c : VCard) :
    (∃ e, c.Generate = ("", some e)) ∨ (∃ s, c.Generate = (s, none)) := by
  rcases c with ⟨v, fs⟩
  simpa [VCard.Generate] using genFields_atomic v fs ("BEGIN:VCARD\nVERSION:" ++ v)

/-- Claim C10: a card passing `Validate` always serializes: `Validate`
only treats the `ErrVersion` sentinel as a failure, and every error any
formatter (including the nested card serialization of `Agent`) can
produce is that sentinel, so `Generate` cannot fail on a validated
card. -/
theorem C10_valid_generates (c : VCard) (h : c.Validate = none) :
    ∃ s, c.Generate = (s, none) := by
  rcases c with ⟨v, fs⟩
  have hok : ∀ f ∈ fs, ∃ s, f.Format v = Except.ok s := by
    intro f hf
    exact Format_ok_of_not_errVersion f v (validate_none_support _ h f hf)
  obtain ⟨out, hout⟩ := genFields_none_of_all_ok v fs hok ("BEGIN:VCARD\nVERSION:" ++ v)
  exact ⟨out, by simpa [VCard.Generate] using hout⟩

/-- Witness for C10: a concrete validated card serializes. -/
theorem C10_valid_generates_witness :
    (VCard.mk "4.0" [Field.FN "Test Person"]).Validate = none ∧
    ∃ s, (VCard.mk "4.0" [Field.FN "Test Person"]).Generate = (s, none) :=
  ⟨by decide, C10_valid_generates (VCard.mk "4.0" [Field.FN "Test Person"]) (by decide)⟩

/-- Splitting the fused header literal of `Generate`. -/
theorem lit_split (x : String) :
    ("BEGIN:VCARD\nVERSION:" : String) ++ x
      = "BEGIN:VCARD" ++ ("\n" ++ ("VERSION:" ++ x)) := by
  have h : ("BEGIN:VCARD\nVERSION:" : String) = "BEGIN:VCARD" ++ "\n" ++ "VERSION:" := by
    decide
  rw [h, String.append_assoc, String.append_assoc]

/-- Claim C2: a successful `Generate` returns exactly the lines
`BEGIN:VCARD`, `VERSION:<v>`, one rendered line per field of the card
in original insertion order, and `END:VCARD`, joined by a single `\n`
separator with no separator after `END:VCARD`. -/
theorem C2_generate_shape (c : VCard) (s : String) (h : c.Generate = (s, none)) :
    ∃ lines : List String,
      List.Forall₂ (fun f l => f.Format c.Version = Except.ok l) c.Fields lines ∧
      lines.length = c.Fields.length ∧
      s = String.intercalate "\n"
        ("BEGIN:VCARD" :: ("VERSION:" ++ c.Version) :: (lines ++ ["END:VCARD"])) := by
  rcases c with ⟨v, fs⟩
  simp only [VCard.Version, VCard.Fields]
  have h2 : genFields v fs ("BEGIN:VCARD\nVERSION:" ++ v) = (s, none) := by
    simpa [VCard.Generate] using h
  obtain ⟨lines, hall, hs⟩ := genFields_ok_shape v fs _ s h2
  refine ⟨lines, hall, hall.length_eq.symm, ?_⟩
  rw [hs, intercalate_eq_joinPre, joinPre, joinPre_append]
  simp only [joinPre]
  simp [String.append_assoc]
  rw [lit_split]

/-- Witness for C2 at a concrete card. -/
theorem C2_generate_shape_witness :
    ∃ lines : List String,
      List.Forall₂
        (fun f l => f.Format (VCard.mk "4.0" [Field.FN "T"]).Version = Except.ok l)
        (VCard.mk "4.0" [Field.FN "T"]).Fields lines ∧
      lines.length = (VCard.mk "4.0" [Field.FN "T"]).Fields.length ∧
      "BEGIN:VCARD\nVERSION:4.0\nFN:T\nEND:VCARD" = String.intercalate "\n"
        ("BEGIN:VCARD" :: ("VERSION:" ++ (VCard.mk "4.0" [Field.FN "T"]).Version)
          :: (lines ++ ["END:VCARD"])) :=
  C2_generate_shape (VCard.mk "4.0" [Field.FN "T"])
    "BEGIN:VCARD\nVERSION:4.0\nFN:T\nEND:VCARD" (by decide)

/-- Claim C1: `New` rejects every version outside the registry with the
`VersionError` (whose message enumerates the supported versions), and
for a registered version builds the card, validates it eagerly and
propagates the validation error, so a card returned by `New` always
validates. -/
theorem C1_new_contract :
    (∀ v fs, v ∉ supportedVersions → New v fs = .error .unknownVersion) ∧
    (∀ s ∈ supportedVersions, ∃ a b, versionErrorMessage = a ++ s ++ b) ∧
    (∀ v fs e, v ∈ supportedVersions → (VCard.mk v fs).Validate = some e →
      New v fs = .error e) ∧
    (∀ v fs card, New v fs = .ok card →
      card = VCard.mk v fs ∧ card.Validate = none) := by
  refine ⟨?_, ?_, ?_, ?_⟩
  · intro v fs hv
    simp [New, hv]
  · intro s hs
    have hs3 : s = "2.1" ∨ s = "3.0" ∨ s = "4.0" := by
      simpa [supportedVersions] using hs
    rcases hs3 with rfl | rfl | rfl
    · exact ⟨"invalid version, supported versions: ", ", 3.0, 4.0", by decide⟩
    · exact ⟨"invalid version, supported versions: 2.1, ", ", 4.0", by decide⟩
    · exact ⟨"invalid version, supported versions: 2.1, 3.0, ", "", by decide⟩
  · intro v fs e hv hval
    simp [New, hv, hval]
  · intro v fs card hnew
    by_cases hv : v ∈ supportedVersions
    · simp only [New, if_pos hv] at hnew
      rcases hval : (VCard.mk v fs).Validate with _ | e
      · rw [hval] at hnew
        simp only [Except.ok.injEq] at hnew
        refine ⟨hnew.symm, ?_⟩
        rw [hnew] at hval
        exact hval
      · rw [hval] at hnew
        simp at hnew
    · simp [New, hv] at hnew

/-- Witness for C1 at concrete inputs: an unknown version is rejected,
the message lists "3.0", a validation error propagates, and a returned
card validates. -/
theorem C1_new_contract_witness :
    New "5.0" [Field.FN "T"] = .error .unknownVersion ∧
    (∃ a b, versionErrorMessage = a ++ "3.0" ++ b) ∧
    New "3.0" [Field.FN "T"] = .error (.missingRequiredField .N "3.0") ∧
    (VCard.mk "4.0" [Field.FN "T"] = VCard.mk "4.0" [Field.FN "T"] ∧
      (VCard.mk "4.0" [Field.FN "T"]).Validate = none) :=
  ⟨C1_new_contract.1 "5.0" [Field.FN "T"] (by decide),
   C1_new_contract.2.1 "3.0" (by decide),
   C1_new_contract.2.2.1 "3.0" [Field.FN "T"] (.missingRequiredField .N "3.0")
     (by decide) (by decide),
   C1_new_contract.2.2.2 "4.0" [Field.FN "T"] (VCard.mk "4.0" [Field.FN "T"]) rfl⟩

/-- Claim C4: a card containing a field whose kind does not support the
card's version always fails `Validate` with an `unsupportedField` error
reporting the (first such) field's kind and the version, regardless of
the field's position; the support pass over the fields in order runs
before the required-kind pass, so no `missingRequiredField` error can
be reported in that situation. -/
theorem C4_unsupported_field (ver : String) (fs : List Field) (f : Field)
    (hf : f ∈ fs) (hunsup : ver ∉ kindVersions (fieldKind f)) :
    (∃ g ∈ fs, isErrVersion (g.Format ver) = true ∧
      (VCard.mk ver fs).Validate = some (.unsupportedField (fieldKind g) ver)) ∧
    ∀ k, (VCard.mk ver fs).Validate ≠ some (.missingRequiredField k ver) := by
  have herr : isErrVersion (f.Format ver) = true := by
    rw [format_of_unsupported f ver hunsup]
    rfl
  obtain ⟨g, hg, hgerr, hval⟩ := validate_unsupported_of_mem (VCard.mk ver fs) f hf herr
  simp only [VCard.Fields, VCard.Version] at hg hgerr hval
  refine ⟨⟨g, hg, hgerr, hval⟩, ?_⟩
  intro k hk
  rw [hval] at hk
  simp at hk

/-- Witness for C4: `Gender` in the last position of a 3.0 card (whose
required kinds are all present) still trips the support pass. -/
theorem C4_unsupported_field_witness :
    ∃ g ∈ [Field.N "Person" "Test" "" "" "", Field.FN "Test Person", Field.Gender "F"],
      isErrVersion (g.Format "3.0") = true ∧
      (VCard.mk "3.0"
        [Field.N "Person" "Test" "" "" "", Field.FN "Test Person", Field.Gender "F"]).Validate
        = some (.unsupportedField (fieldKind g) "3.0") :=
  (C4_unsupported_field "3.0"
    [Field.N "Person" "Test" "" "" "", Field.FN "Test Person", Field.Gender "F"]
    (Field.Gender "F") (by simp) (by decide)).1

/-- Counterexample to C3 as stated: the empty 3.0 card is missing the
required kind `N` and fails `Validate` naming it, but appending one `N`
instance does not make `Validate` succeed, because `FN` is still
missing. -/
theorem C3_counterexample :
    (VCard.mk "3.0" []).Validate = some (.missingRequiredField .N "3.0") ∧
    (VCard.mk "3.0" ([] ++ [Field.N "Person" "Test" "" "" ""])).Validate
      = some (.missingRequiredField .FN "3.0") := by
  constructor
  · decide
  · decide

/-- Claim C3 (amended): the required kinds are exactly `{N}` for 2.1,
`{N, FN}` for 3.0 and `{FN}` for 4.0; a card with all fields supporting
its version and a required kind absent always fails `Validate` with a
`missingRequiredField` error naming a missing kind and the version; and
if the named kind was the only missing required kind, appending one
instance of it makes `Validate` succeed. -/
theorem C3_required_fields :
    (versionsRequired "2.1" = [.N] ∧ versionsRequired "3.0" = [.N, .FN] ∧
      versionsRequired "4.0" = [.FN]) ∧
    (∀ ver fs req, (∀ f ∈ fs, isErrVersion (f.Format ver) = false) →
      req ∈ versionsRequired ver → req ∉ fs.map fieldKind →
      (∃ k, k ∈ versionsRequired ver ∧ k ∉ fs.map fieldKind ∧
        (VCard.mk ver fs).Validate = some (.missingRequiredField k ver)) ∧
      ((∀ r ∈ versionsRequired ver, r ≠ req → r ∈ fs.map fieldKind) →
        ∀ g, fieldKind g = req →
          (VCard.mk ver (fs ++ [g])).Validate = none)) := by
  refine ⟨⟨by decide, by decide, by decide⟩, ?_⟩
  intro ver fs req hsupp hreq habs
  refine ⟨validate_missing ver fs hsupp req hreq habs, ?_⟩
  intro hothers g hg
  apply validate_none_of
  · intro f hf
    rcases List.mem_append.mp hf with h1 | h1
    · exact hsupp f h1
    · have h2 : f = g := by simpa using h1
      rw [h2]
      exact required_kind_supported ver req hreq g hg
  · intro r hr
    rw [List.map_append, List.mem_append]
    by_cases hrq : r = req
    · right
      simp [hg, hrq]
    · exact .inl (hothers r hr hrq)

/-- Witness for C3 (amended): a 3.0 card with only `N` fails for `FN`;
appending one `FN` makes it validate. -/
theorem C3_required_fields_witness :
    (∃ k, k ∈ versionsRequired "3.0" ∧
      k ∉ [Field.N "Person" "Test" "" "" ""].map fieldKind ∧
      (VCard.mk "3.0" [Field.N "Person" "Test" "" "" ""]).Validate
        = some (.missingRequiredField k "3.0")) ∧
    (VCard.mk "3.0" ([Field.N "Person" "Test" "" "" ""] ++ [Field.FN "Test Person"])).Validate
      = none := by
  have h := C3_required_fields.2 "3.0" [Field.N "Person" "Test" "" "" ""] .FN
    (by decide) (by decide) (by decide)
  exact ⟨h.1, h.2 (by decide) (Field.FN "Test Person") (by decide)⟩

/-- Counterexample to C5 as stated: a directly constructed 4.0 card
with no fields fails `Validate` (required `FN` missing) yet `Generate`
returns the complete framed document with no error, because `Generate`
never runs `Validate`. -/
theorem C5_counterexample :
    (VCard.mk "4.0" []).Validate = some (.missingRequiredField .FN "4.0") ∧
    (VCard.mk "4.0" []).Generate = ("BEGIN:VCARD\nVERSION:4.0\nEND:VCARD", none) := by
  constructor
  · decide
  · decide

/-- Claim C5 (amended): when `Validate` fails with an `unsupportedField`
error, `Generate` indeed produces no output: it returns the empty
string and the `ErrVersion` sentinel.  (A card failing `Validate` only
for a missing required kind still serializes, so the never-any-output
invariant holds only for cards vetted by `Validate` beforehand, as `New`
and `QR` do.) -/
theorem C5_unsupported_no_output (c : VCard) (k : FieldKind)
    (h : c.Validate = some (.unsupportedField k c.Version)) :
    c.Generate = ("", some .errVersion) := by
  rcases c with ⟨v, fs⟩
  rcases hfind : fs.find? (fun g => isErrVersion (g.Format v)) with _ | g
  · exfalso
    simp only [VCard.Validate, VCard.Fields, VCard.Version, hfind] at h
    rcases hfind2 : (versionsRequired v).find?
        (fun r => !(decide (r ∈ fs.map fieldKind))) with _ | k2
    · rw [hfind2] at h
      simp at h
    · rw [hfind2] at h
      simp at h
  · have hgmem : g ∈ fs := List.mem_of_find?_eq_some hfind
    have hgp : isErrVersion (g.Format v) = true :=
      @List.find?_some Field (fun g => isErrVersion (g.Format v)) g fs hfind
    have hge : g.Format v = .error .errVersion := (isErrVersion_iff _).mp hgp
    have := genFields_err_of_mem v fs g hgmem hge ("BEGIN:VCARD\nVERSION:" ++ v)
    simpa [VCard.Generate] using this

/-- Witness for C5 (amended): a 3.0 card holding a `Gender` field fails
`Validate` with `unsupportedField` and `Generate` returns no output. -/
theorem C5_unsupported_no_output_witness :
    (VCard.mk "3.0" [Field.Gender "F"]).Validate
      = some (.unsupportedField .Gender "3.0") ∧
    (VCard.mk "3.0" [Field.Gender "F"]).Generate = ("", some .errVersion) :=
  ⟨by decide,
   C5_unsupported_no_output (VCard.mk "3.0" [Field.Gender "F"]) .Gender (by decide)⟩

/-- Counterexample to C7 as stated: `Key.Format` does not guard an
empty type attribute: the URI branch emits the empty parameter `;:` at
2.1, `;TYPE=:` at 3.0 and `;MEDIATYPE=:` at 4.0. -/
theorem C7_counterexample :
    Field.Format (.Key "" (some "http://example.com/key.pgp") "" false) "3.0"
      = .ok "KEY;TYPE=:http://example.com/key.pgp" ∧
    containsStr ";TYPE=:" "KEY;TYPE=:http://example.com/key.pgp" = true ∧
    Field.Format (.Key "" (some "http://example.com/key.pgp") "" false) "2.1"
      = .ok "KEY;:http://example.com/key.pgp" ∧
    containsStr ";:" "KEY;:http://example.com/key.pgp" = true ∧
    Field.Format (.Key "" (some "http://example.com/key.pgp") "" false) "4.0"
      = .ok "KEY;MEDIATYPE=:http://example.com/key.pgp" ∧
    containsStr ";MEDIATYPE=:" "KEY;MEDIATYPE=:http://example.com/key.pgp" = true := by
  refine ⟨by decide, by decide, by decide, by decide, by decide, by decide⟩

/-- Claim C7 (amended): for `Photo` an omitted (empty) type emits no
empty parameter: the output at every supported version and in both the
inline-data and the URI branch is exactly the parameter-free form, and
the fixed scaffolding of those forms contains none of `;:`, `;TYPE=:`,
`;MEDIATYPE=:` (the 4.0 inline branch does render the empty type inside
the data URI, `PHOTO:data:;base64,…`, which is not one of the flagged
parameter shapes).  `Key`, by contrast, does not guard the empty type
and emits exactly those empty parameters in the URI branch. -/
theorem C7_empty_type (uri : Option String) (b64 : String) :
    (b64 ≠ "" → Field.Format (.Photo "" uri b64) "2.1"
      = .ok ("PHOTO;ENCODING=BASE64:" ++ b64)) ∧
    (b64 = "" → Field.Format (.Photo "" uri b64) "2.1"
      = .ok ("PHOTO:" ++ uriRender uri)) ∧
    (b64 ≠ "" → Field.Format (.Photo "" uri b64) "3.0"
      = .ok ("PHOTO;ENCODING=b:" ++ b64)) ∧
    (b64 = "" → Field.Format (.Photo "" uri b64) "3.0"
      = .ok ("PHOTO;VALUE=uri:" ++ uriRender uri)) ∧
    (b64 ≠ "" → Field.Format (.Photo "" uri b64) "4.0"
      = .ok ("PHOTO:data:;base64," ++ b64)) ∧
    (b64 = "" → Field.Format (.Photo "" uri b64) "4.0"
      = .ok ("PHOTO:" ++ uriRender uri)) ∧
    (∀ pre ∈ (["PHOTO;ENCODING=BASE64:", "PHOTO:", "PHOTO;ENCODING=b:",
        "PHOTO;VALUE=uri:", "PHOTO:data:;base64,"] : List String),
      containsStr ";:" pre = false ∧ containsStr ";TYPE=:" pre = false ∧
        containsStr ";MEDIATYPE=:" pre = false) ∧
    Field.Format (.Key "" uri "" false) "2.1" = .ok ("KEY;:" ++ uriRender uri) ∧
    Field.Format (.Key "" uri "" false) "3.0" = .ok ("KEY;TYPE=:" ++ uriRender uri) ∧
    Field.Format (.Key "" uri "" false) "4.0"
      = .ok ("KEY;MEDIATYPE=:" ++ uriRender uri) := by
  have hlen : b64 ≠ "" → b64.length ≠ 0 := by
    intro h h0
    exact h (by simpa using congrArg String.mk (List.length_eq_zero.mp (by simpa using h0)))
  refine ⟨?_, ?_, ?_, ?_, ?_, ?_, by decide, by rfl, by rfl, by rfl⟩
  · intro h
    simp [Field.Format, mediaString, hlen h]
  · intro h
    subst h
    rfl
  · intro h
    simp [Field.Format, mediaString, Nat.pos_of_ne_zero (hlen h)]
  · intro h
    subst h
    rfl
  · intro h
    simp [Field.Format, mediaString, hlen h]
  · intro h
    subst h
    rfl

/-- Witness for C7 (amended) at concrete payloads. -/
theorem C7_empty_type_witness :
    Field.Format (.Photo "" (some "http://example.com/a.png") "AAAA") "4.0"
      = .ok ("PHOTO:data:;base64," ++ "AAAA") ∧
    Field.Format (.Photo "" (some "http://example.com/a.png") "") "3.0"
      = .ok ("PHOTO;VALUE=uri:" ++ uriRender (some "http://example.com/a.png")) :=
  ⟨(C7_empty_type (some "http://example.com/a.png") "AAAA").2.2.2.2.1 (by decide),
   (C7_empty_type (some "http://example.com/a.png") "").2.2.2.1 rfl⟩

/-- Claim C8: `Geo.Format` renders latitude and longitude with fixed
six-decimal formatting, as `GEO:lat,long` at 2.1 and 3.0 and
`GEO:geo:lat,long` at 4.0; on the concrete coordinates 39.95 and
-75.1667 it produces exactly the expected strings. -/
theorem C8_geo_format :
    (∀ (lat long : ℚ) (v : String), v = "2.1" ∨ v = "3.0" →
      Field.Format (.Geo lat long) v = .ok ("GEO:" ++ fmt6 lat ++ "," ++ fmt6 long)) ∧
    (∀ lat long : ℚ, Field.Format (.Geo lat long) "4.0"
      = .ok ("GEO:geo:" ++ fmt6 lat ++ "," ++ fmt6 long)) ∧
    Field.Format (.Geo (39.95 : ℚ) (-75.1667 : ℚ)) "4.0"
      = .ok "GEO:geo:39.950000,-75.166700" ∧
    Field.Format (.Geo (39.95 : ℚ) (-75.1667 : ℚ)) "3.0"
      = .ok "GEO:39.950000,-75.166700" := by
  have h39 : (39.95 : ℚ) = mkRat 3995 100 := by norm_num [Rat.mkRat_eq_div]
  have h75 : (-75.1667 : ℚ) = mkRat (-751667) 10000 := by norm_num [Rat.mkRat_eq_div]
  refine ⟨?_, ?_, ?_, ?_⟩
  · rintro lat long v (rfl | rfl) <;> simp [Field.Format]
  · intro lat long
    simp [Field.Format]
  · rw [h39, h75]
    decide
  · rw [h39, h75]
    decide

/-- Witness for C8 at a concrete version choice. -/
theorem C8_geo_format_witness :
    Field.Format (.Geo (mkRat 1 2) (mkRat (-1) 2)) "2.1"
      = .ok ("GEO:" ++ fmt6 (mkRat 1 2) ++ "," ++ fmt6 (mkRat (-1) 2)) :=
  C8_geo_format.1 (mkRat 1 2) (mkRat (-1) 2) "2.1" (Or.inl rfl)

/-- Claim C9: a `Photo` with inline base64 data renders at 4.0 as
`PHOTO:data:<type>;base64,<data>`, ignoring any URI; in particular
`Photo{Type: image/jpeg, Base64Data: AAAA}` renders as
`PHOTO:data:image/jpeg;base64,AAAA`. -/
theorem C9_photo_inline (tp : String) (uri : Option String) (b64 : String)
    (h : b64 ≠ "") :
    Field.Format (.Photo tp uri b64) "4.0"
      = .ok ("PHOTO:data:" ++ tp ++ ";base64," ++ b64) ∧
    Field.Format (.Photo "image/jpeg" none "AAAA") "4.0"
      = .ok "PHOTO:data:image/jpeg;base64,AAAA" := by
  constructor
  · have hlen : b64.length ≠ 0 := by
      intro h0
      exact h (by simpa using congrArg String.mk (List.length_eq_zero.mp (by simpa using h0)))
    simp [Field.Format, mediaString, hlen]
  · decide

/-- Witness for C9: the URI is present yet ignored. -/
theorem C9_photo_inline_witness :
    Field.Format (.Photo "image/jpeg" (some "http://example.com/p.jpg") "AAAA") "4.0"
      = .ok ("PHOTO:data:" ++ "image/jpeg" ++ ";base64," ++ "AAAA") :=
  (C9_photo_inline "image/jpeg" (some "http://example.com/p.jpg") "AAAA" (by decide)).1

end Vcard
